import Mathlib

/-!
Verification development for the epub-saver library.

This file gives a shallow embedding of the document-and-resource assembly
model implemented by the `EpubSaver` / `Volume` classes: the first-write-wins
resource store, the URL-to-path index, the image-processing pipeline of
`addChapter`, the stylesheet-link computation of `buildXhtml`, the three
document generators (`generateNcx`, `generateOpf`, `generateNav`) and the
archive assembly of `save`.

Out-of-scope collaborators are modelled as explicit parameters, exactly as
the specification delimits them: the network `fetch` primitive is a function
from a URL to a response, HTML parsing and serialization are opaque
functions, the timestamp and the uuid are strings supplied from outside.
Binary payloads are opaque byte lists.  JS `Map`s are association lists in
insertion order, matching JS `Map` iteration.  The asynchronous image fan-out
is modelled as the race-free sequential schedule (in document order), which
is one of the schedules the single-threaded event loop can produce; every
property proved or refuted below is schedule-independent except where noted.

CSS url(...) rewriting (`processCSSUrls`, `addCSS`, `createCSSMap`) is not
needed by any claim and is not embedded; the stylesheet *catalog* (`cssList`)
that `buildXhtml` consults is embedded.
-/

namespace Epub

/-- Binary payloads (`Uint8Array`) are modelled as lists of naturals; byte contents are opaque to every claim. -/
abbrev Bytes := List Nat

/-- Models `new TextEncoder().encode(s)` as an opaque injective encoding of the string. -/
def strBytes (s : String) : Bytes := s.toList.map (fun c => c.toNat)

/-- Accumulator loop for `jsSplitPop`: the chunk after the last occurrence of the separator. -/
def jsSplitPopAux (sep : Char) : List Char → List Char → List Char
  | cur, [] => cur.reverse
  | cur, c :: cs =>
    if c == sep then jsSplitPopAux sep [] cs else jsSplitPopAux sep (c :: cur) cs

/-- JS `s.split(sep).pop()` for a one-character separator: the part after the last
separator (the whole string when the separator is absent). -/
def jsSplitPop (sep : Char) (s : String) : String := String.mk (jsSplitPopAux sep [] s.toList)

/-- The characters before the first occurrence of any stop character. -/
def beforeCharsAux (stop : List Char) : List Char → List Char
  | [] => []
  | c :: cs => if stop.contains c then [] else c :: beforeCharsAux stop cs

/-- JS `url.split(/[#?]/)[0]`: the prefix before the first fragment or query delimiter. -/
def beforeHashQuery (s : String) : String := String.mk (beforeCharsAux ['#', '?'] s.toList)

/-- Whether `pat` is a prefix of `s` (case-sensitive, on character lists). -/
def listStartsWith (pat s : List Char) : Bool :=
  match pat, s with
  | [], _ => true
  | _ :: _, [] => false
  | p :: ps, c :: cs => p == c && listStartsWith ps cs

/-- JS `s.startsWith(pre)`. -/
def jsStartsWith (pre s : String) : Bool := listStartsWith pre.toList s.toList

/-- JS `s.endsWith(suf)`. -/
def jsEndsWith (suf s : String) : Bool := listStartsWith suf.toList.reverse s.toList.reverse

/-- JS `array.join(sep)`. -/
def joinSep (sep : String) : List String → String
  | [] => ""
  | [x] => x
  | x :: xs => x ++ sep ++ joinSep sep xs

/-- JS `opt || default` for strings read from `this.info`: `undefined` and the empty string are falsy. -/
def jsOrStr (o : Option String) (d : String) : String :=
  match o with
  | some s => if s = "" then d else s
  | none => d

/-- The content-type-to-extension table `MIME_MAP` (source lines 4-12). -/
def MIME_MAP : List (String × String) :=
  [("image/jpeg", "jpg"), ("image/png", "png"), ("image/gif", "gif"),
   ("image/webp", "webp"), ("image/svg+xml", "svg"), ("image/avif", "avif"),
   ("application/octet-stream", "bin")]

/-- JS `toLowerCase`, modelled characterwise (ASCII case folding, as `Char.toLower` does). -/
def jsToLower (s : String) : String := String.mk (s.toList.map Char.toLower)

/-- `getExtension` (source lines 88-92):
`fromMime = MIME_MAP.get(mimeType) || mimeType.split('/').pop()`,
`fromUrl = url.split(/[#?]/)[0].split('.').pop()`,
`(fromMime || fromUrl || 'bin').toLowerCase()`. -/
def getExtension (mimeType url : String) : String :=
  let fromMime :=
    match List.lookup mimeType MIME_MAP with
    | some e => e
    | none => jsSplitPop '/' mimeType
  let fromUrl := jsSplitPop '.' (beforeHashQuery url)
  jsToLower (if fromMime != "" then fromMime else if fromUrl != "" then fromUrl else "bin")

/-- `escapeXml` (source lines 93-105): the five reserved XML characters become entities. -/
def escapeXmlChar (c : Char) : String :=
  if c = '<' then "&lt;"
  else if c = '>' then "&gt;"
  else if c = '&' then "&amp;"
  else if c = '\'' then "&apos;"
  else if c = '"' then "&quot;"
  else String.singleton c

/-- `escapeXml` applied to a whole string (`str.replace(/[<>&'"]/g, ...)`). -/
def escapeXml (s : String) : String := String.join (s.toList.map escapeXmlChar)

/-- Manifest id sanitization `path.replace(/[^a-z0-9]/gi, '-')` (source lines 399 and 418). -/
def sanitizeId (p : String) : String :=
  String.mk (p.toList.map (fun c => if c.isAlphanum then c else '-'))

/-- Media type inference from the path suffix (source lines 400-404). -/
def mediaTypeOf (path : String) : String :=
  if jsEndsWith ".xhtml" path then "application/xhtml+xml"
  else if jsEndsWith ".css" path then "text/css"
  else if jsEndsWith ".jpg" path || jsEndsWith ".jpeg" path then "image/jpeg"
  else if jsEndsWith ".png" path then "image/png"
  else "application/octet-stream"

/-- The resource table `this.resources` (a JS `Map` in insertion order). -/
abbrev ResourceStore := List (String × Bytes)

/-- `this.resources.has(path)`. -/
def storeHas (s : ResourceStore) (p : String) : Bool := s.any (fun r => r.1 == p)

/-- `this.resources.get(path)` (first entry with the key; keys are unique by construction). -/
def storeGet (s : ResourceStore) (p : String) : Option Bytes :=
  (s.find? (fun r => r.1 == p)).map (fun r => r.2)

/-- `_addResource` (source lines 220-224): insert only when the path is absent. -/
def _addResource (s : ResourceStore) (p : String) (b : Bytes) : ResourceStore :=
  if storeHas s p then s else s ++ [(p, b)]

/-- Folding a whole registration sequence through `_addResource`, starting from the empty store. -/
def buildStore (regs : List (String × Bytes)) : ResourceStore :=
  regs.foldl (fun s r => _addResource s r.1 r.2) []

/-- The URL-to-local-path index `this.resourceUrls` (a JS `Map`). -/
abbrev UrlIndex := List (String × String)

/-- `this.resourceUrls.has(url)`. -/
def urlHas (m : UrlIndex) (k : String) : Bool := m.any (fun r => r.1 == k)

/-- `this.resourceUrls.get(url)`. -/
def urlGet (m : UrlIndex) (k : String) : Option String :=
  (m.find? (fun r => r.1 == k)).map (fun r => r.2)

/-- JS `Map.set`: overwrite in place when the key exists, append otherwise. -/
def urlSet (m : UrlIndex) (k v : String) : UrlIndex :=
  if urlHas m k then m.map (fun r => if r.1 == k then (k, v) else r) else m ++ [(k, v)]

/-- A chapter record as pushed by `addChapter` (source line 142). -/
structure Chapter where
  idx : Int
  title : String
  filename : String
  deriving DecidableEq

/-- A volume record (source lines 22-46). -/
structure Volume where
  idx : Int
  title : String
  containerFile : String
  chapters : List Chapter
  deriving DecidableEq

/-- A stylesheet catalog entry as pushed by `addCSS` (source line 289). -/
structure CssEntry where
  idx : Int
  filename : String
  mapname : String
  deriving DecidableEq

/-- The shared resource counters (source line 217). -/
structure Counters where
  image : Nat
  css : Nat
  other : Nat
  deriving DecidableEq

/-- The metadata bag `this.info`; only the tags the code reads are modelled. -/
structure Info where
  cover : Option Bytes
  bookname : Option String
  author : Option String
  introduction : Option String
  deriving DecidableEq

/-- The whole `EpubSaver` instance state. -/
structure EpubSaver where
  resources : ResourceStore
  resourceUrls : UrlIndex
  volumes : List Volume
  cssList : List CssEntry
  info : Info
  uuid : String
  resourceCounters : Counters
  deriving DecidableEq

/-- The constructor (source lines 209-218); the uuid collaborator is a parameter. -/
def EpubSaver.init (uuid : String) : EpubSaver :=
  ⟨[], [], [], [], ⟨none, none, none, none⟩, uuid, ⟨0, 0, 0⟩⟩

/-- Case-insensitive character comparison for the `/i` regex flag. -/
def ciEq (a b : Char) : Bool := a.toLower == b.toLower

/-- Case-insensitive `startsWith` on character lists. -/
def startsWithCI : List Char → List Char → Bool
  | [], _ => true
  | _ :: _, [] => false
  | p :: ps, c :: cs => ciEq p c && startsWithCI ps cs

/-- First case-insensitive occurrence of `pat`: returns the remainder after the match. -/
def findSplitCI (pat : List Char) : List Char → Option (List Char)
  | [] => if pat.isEmpty then some [] else none
  | c :: cs =>
    if startsWithCI pat (c :: cs) then some ((c :: cs).drop pat.length)
    else findSplitCI pat cs

/-- Takes characters up to (excluding) the first case-insensitive occurrence of `pat`; `none` when absent. -/
def takeUntilCI (pat : List Char) : List Char → Option (List Char)
  | [] => if pat.isEmpty then some [] else none
  | c :: cs =>
    if startsWithCI pat (c :: cs) then some []
    else (takeUntilCI pat cs).map (fun l => c :: l)

/-- The lazy group of `/<open>([\s\S]*?)<\/open>/i`: text between the first opening tag and the
first closing tag after it, when both occur. -/
def extractBetweenCI (openTag closeTag : String) (s : String) : Option String :=
  match findSplitCI openTag.toList s.toList with
  | none => none
  | some rest =>
    match takeUntilCI closeTag.toList rest with
    | none => none
    | some mid => some (String.mk mid)

/-- `extractContent` (source lines 106-119): article group, else body group, else the input verbatim.
The `catch` branch is unreachable (regex matching does not throw) and is dropped. -/
def extractContent (html : String) : String :=
  match extractBetweenCI "<article>" "</article>" html with
  | some m => m
  | none =>
    match extractBetweenCI "<body>" "</body>" html with
    | some m => m
    | none => html

/-- `wrapContent` (source lines 48-56). -/
def wrapContent (content title contentType : String) (insertTitle : Bool) : String :=
  if contentType = "text" then
    "<pre>" ++ (if insertTitle then "<h1>" ++ title ++ "</h1>" else "") ++ content ++ "</pre>"
  else if contentType = "html" && insertTitle then
    "<h1>" ++ title ++ "</h1>" ++ content
  else content

/-- A node of the parsed chapter tree.  HTML parsing and serialization are opaque
collaborators; the claims only need to distinguish `img` elements (with their
`src` attribute) from everything else, in document order. -/
inductive ContentNode where
  | text (s : String)
  | img (src : Option String)
  deriving DecidableEq

/-- The response of the opaque `fetch` collaborator. -/
structure FetchResponse where
  ok : Bool
  contentType : Option String
  bytes : Bytes
  deriving DecidableEq

/-- A fetch either succeeds with a response or rejects with a network error. -/
inductive FetchResult where
  | success (r : FetchResponse)
  | networkError
  deriving DecidableEq

/-- The fetch collaborator: a deterministic oracle from URLs to outcomes. -/
abbrev FetchFn := String → FetchResult

/-- True when fetching `u` throws in the `try` block of `processImages`:
a network error, or a response with a non-success status (`!response.ok`). -/
def fetchFails (f : FetchFn) (u : String) : Bool :=
  match f u with
  | .networkError => true
  | .success r => !r.ok

/-- The mixed-content upgrade (source lines 161-168): under a secure context, a plain
`http://` URL is rewritten to `https://` before fetching. -/
def upgradeUrl (secure : Bool) (url : String) : String :=
  if jsStartsWith "http://" url && secure then "https://" ++ String.mk (url.toList.drop 7) else url

/-- The `Content-Type` header defaulting and `split(';')[0]` (source lines 174-175). -/
def mimeOfHeader (h : Option String) : String :=
  let ct := match h with
    | none => "application/octet-stream"
    | some c => if c = "" then "application/octet-stream" else c
  String.mk (beforeCharsAux [';'] ct.toList)

/-- One image task of `processImages` (source lines 154-188), on the race-free schedule.
Returns the node as left in the tree (`none` when `img.remove()` ran), the staged
`[url, path, bytes]` triple when the fetch succeeded, and the image counter after the task. -/
def processImg (urls : UrlIndex) (secure : Bool) (f : FetchFn) (c : Nat) :
    ContentNode → Option ContentNode × Option (String × String × Bytes) × Nat
  | .text s => (some (.text s), none, c)
  | .img none => (some (.img none), none, c)
  | .img (some url) =>
    if url = "" then (some (.img (some url)), none, c)
    else if urlHas urls url then (some (.img (some url)), none, c)
    else if !jsStartsWith "http" url then (none, none, c)
    else
      let u := upgradeUrl secure url
      match f u with
      | .networkError => (none, none, c)
      | .success r =>
        if !r.ok then (none, none, c)
        else
          let ext := getExtension (mimeOfHeader r.contentType) u
          let filename := "images/img" ++ toString c ++ "." ++ ext
          (some (.img (some filename)), some (u, filename, r.bytes), c + 1)

/-- `processImages` (source lines 147-196) over the node list, in document order.
The per-image `try`/`catch` never lets an exception escape, so the model is total. -/
def processImages (urls : UrlIndex) (secure : Bool) (f : FetchFn) :
    Nat → List ContentNode → List ContentNode × List (String × String × Bytes) × Nat
  | c, [] => ([], [], c)
  | c, n :: ns =>
    let r := processImg urls secure f c n
    let rest := processImages urls secure f r.2.2 ns
    (r.1.toList ++ rest.1, r.2.1.toList ++ rest.2.1, rest.2.2)

/-- `registerResources` (source lines 57-62): for each staged triple, record the URL
mapping and register the resource. -/
def registerResources (e : EpubSaver) (rs : List (String × String × Bytes)) : EpubSaver :=
  rs.foldl
    (fun acc r =>
      { acc with
        resourceUrls := urlSet acc.resourceUrls r.1 r.2.1
        resources := _addResource acc.resources r.2.1 r.2.2 })
    e

/-- The stylesheet-link computation of `buildXhtml` (source lines 64-74): the global
stylesheet (first catalog entry with index 0) when requested and present, then the
first match of each requested index in request order, unmatched indices skipped. -/
def cssLinks (cssL : List CssEntry) (useGlobalCSS : Bool) (cssIdxList : List Int) : List CssEntry :=
  let start := if useGlobalCSS then (cssL.find? (fun c => c.idx == 0)).toList else []
  cssIdxList.foldl
    (fun acc i =>
      match cssL.find? (fun c => c.idx == i) with
      | some c => acc ++ [c]
      | none => acc)
    start

/-- Modelled from the spec claim wording (for refinement comparison only): one link for
stylesheet index 0 if one exists, then one link per requested index with a matching
stylesheet, in request order, silently skipping indices with no match. -/
def claimedCssLinks (cssL : List CssEntry) (cssIdxList : List Int) : List CssEntry :=
  (cssL.find? (fun c => c.idx == 0)).toList
    ++ cssIdxList.filterMap (fun i => cssL.find? (fun c => c.idx == i))

/-- The rendered `<link>` elements of the chapter head (source line 81). -/
def chapterLinkTags (cssL : List CssEntry) (useGlobalCSS : Bool) (cssIdxList : List Int) : List String :=
  (cssLinks cssL useGlobalCSS cssIdxList).map
    (fun c => "<link href=\"" ++ c.filename ++ "\" rel=\"stylesheet\"/>")

/-- `buildXhtml` (source lines 63-87).  Only the `<title>` interpolation is escaped;
the body re-runs `extractContent` on the processed content. -/
def buildXhtml (cssL : List CssEntry) (content1 title : String) (useGlobalCSS : Bool)
    (cssIdxList : List Int) : String :=
  "<?xml version=\"1.0\" encoding=\"UTF-8\"?>\n<!DOCTYPE html>\n"
    ++ "<html xmlns=\"http://www.w3.org/1999/xhtml\">\n<head>\n"
    ++ "<meta name=\"viewport\" content=\"width=device-width, height=device-height, initial-scale=1.0\"/>\n"
    ++ "<title>" ++ escapeXml title ++ "</title>\n"
    ++ joinSep "\n  " (chapterLinkTags cssL useGlobalCSS cssIdxList)
    ++ "\n</head>\n<body>\n" ++ extractContent content1 ++ "\n</body>\n</html>"

/-- The placeholder container document of the `Volume` constructor (source lines 35-44);
the title is interpolated raw, twice. -/
def volumeContainerContent (title : String) : String :=
  "<?xml version=\"1.0\" encoding=\"UTF-8\"?>\n<!DOCTYPE html>\n"
    ++ "<html xmlns=\"http://www.w3.org/1999/xhtml\">\n<head>\n<title>" ++ title
    ++ "</title>\n</head>\n<body>\n<h1>" ++ title ++ "</h1>\n</body>\n</html>"

/-- `addVolume` (source lines 243-247) together with the `Volume` constructor
(source lines 29-46): registers the container document and appends the volume. -/
def addVolume (e : EpubSaver) (title : String) (idx : Int) : EpubSaver :=
  let containerFile := "volume_" ++ toString idx ++ ".xhtml"
  let e1 := { e with
    resources := _addResource e.resources containerFile (strBytes (volumeContainerContent title)) }
  { e1 with volumes := e1.volumes ++ [⟨idx, title, containerFile, []⟩] }

/-- `Volume.addChapter` (source lines 121-145).  `parse` and `serialize` are the opaque
`DOMParser` / `XMLSerializer` collaborators; `volPos` is the position of the volume
handle in `this.volumes`; an out-of-range handle leaves the state unchanged
(unreachable through the API). -/
def addChapter (parse : String → List ContentNode) (serialize : List ContentNode → String)
    (f : FetchFn) (secure : Bool) (e : EpubSaver) (volPos : Nat) (idx : Int)
    (content title contentType : String) (insertTitle useGlobalCSS : Bool)
    (cssIdxList : List Int) : EpubSaver :=
  match e.volumes[volPos]? with
  | none => e
  | some v =>
    let chapD := extractContent content
    let processed := wrapContent chapD title contentType insertTitle
    let nodes := parse processed
    let res := processImages e.resourceUrls secure f e.resourceCounters.image nodes
    let e1 := { e with resourceCounters := { e.resourceCounters with image := res.2.2 } }
    let e2 := registerResources e1 res.2.1
    let xhtml := buildXhtml e2.cssList (serialize res.1) title useGlobalCSS cssIdxList
    let filename := "chapter_" ++ toString v.idx ++ "_" ++ toString idx ++ ".xhtml"
    let e3 := { e2 with resources := _addResource e2.resources filename (strBytes xhtml) }
    { e3 with
      volumes := e3.volumes.set volPos { v with chapters := v.chapters ++ [⟨idx, title, filename⟩] } }

/-- `setInfo` with the `cover` tag and a raw byte value (source lines 228-235). -/
def setInfoCoverBytes (e : EpubSaver) (b : Bytes) : EpubSaver :=
  { e with info := { e.info with cover := some b } }

/-- `setInfo` with the `cover` tag and a URL value (source lines 228-235): the URL is
fetched eagerly, the response body becomes the cover bytes with no status or
content-type inspection; a network error propagates to the caller (`none`). -/
def setInfoCoverUrl (f : FetchFn) (e : EpubSaver) (url : String) : Option EpubSaver :=
  match f url with
  | .networkError => none
  | .success r => some { e with info := { e.info with cover := some r.bytes } }

/-- `setInfo` with a plain text tag (source lines 236-239), for the tags the generators read. -/
def setInfoTag (e : EpubSaver) (tag value : String) : EpubSaver :=
  if tag = "bookname" then { e with info := { e.info with bookname := some value } }
  else if tag = "author" then { e with info := { e.info with author := some value } }
  else if tag = "introduction" then { e with info := { e.info with introduction := some value } }
  else e

/-- Stable insertion for the ascending `(a, b) => a.idx - b.idx` sort. -/
def insertByIdx (key : α → Int) (x : α) : List α → List α
  | [] => [x]
  | y :: ys => if key y < key x then y :: insertByIdx key x ys else x :: y :: ys

/-- The JS `Array.sort((a, b) => a.idx - b.idx)` (ascending, stable). -/
def sortByIdx (key : α → Int) (l : List α) : List α :=
  l.foldr (insertByIdx key) []

/-- The in-place sorting side effect of the generators on `this.volumes`: after
`generateOpf` has run, the volume array and every chapter array are sorted. -/
def sortStateVolumes (e : EpubSaver) : EpubSaver :=
  { e with
    volumes :=
      sortByIdx (fun v => v.idx)
        (e.volumes.map (fun v => { v with chapters := sortByIdx (fun c => c.idx) v.chapters })) }

/-- The cover side effect of `generateOpf` (source lines 362-384): when cover bytes are
present, register them under the fixed path `images/cover.jpg` and register the cover
XHTML page, both through the first-write-wins `_addResource`. -/
def opfApplyCoverResources (e : EpubSaver) : EpubSaver :=
  match e.info.cover with
  | none => e
  | some cover =>
    let r1 := _addResource e.resources "images/cover.jpg" cover
    let r2 := _addResource r1 "cover.xhtml" (strBytes coverXhtml)
    { e with resources := r2 }
where
  /-- The fixed cover page (source lines 370-382). -/
  coverXhtml : String :=
    "<?xml version=\"1.0\" encoding=\"UTF-8\"?>\n<!DOCTYPE html>\n"
      ++ "<html xmlns=\"http://www.w3.org/1999/xhtml\">\n<head>\n"
      ++ "<meta name=\"viewport\" content=\"width=device-width, height=device-height, initial-scale=1.0, minimum-scale=1.0\"/>\n"
      ++ "<title>Cover</title>\n</head>\n<body>\n"
      ++ "<div style=\"text-align: center; padding: 0pt; margin: 0pt;\">\n"
      ++ "<img src=\"images/cover.jpg\" alt=\"Cover Image\" style=\"height: 100%; max-width: 100%;\"/>\n"
      ++ "</div>\n</body>\n</html>"

/-- The state at archive-assembly time: the cover resources have been registered and the
volume/chapter arrays carry the in-place sorts performed inside `generateOpf`
(`save` runs `generateOpf` before `generateNcx`, the resource loop and `generateNav`). -/
def finalizeState (e : EpubSaver) : EpubSaver :=
  sortStateVolumes (opfApplyCoverResources e)

/-- The `src` of a volume navPoint (source line 317):
`vol.containerFile || vol.chapters[0]?.filename` — interpolating `undefined` when both
are missing, as the template literal does. -/
def ncxVolumeSrc (v : Volume) : String :=
  if v.containerFile = "" then
    match v.chapters.head? with
    | some c => c.filename
    | none => "undefined"
  else v.containerFile

/-- One volume block of the navigation-map document, as structured data:
the volume whose block it is, the emitted label, the emitted `src`, and the emitted
chapter sub-points in emission order. -/
structure NcxVolEntry where
  volIdx : Int
  volTitle : String
  volSrc : String
  chapters : List Chapter
  deriving DecidableEq

/-- The emission sequence of `generateNcx` (source lines 306-349): volumes sorted by
index; per volume a label (raw title), a `src`, and the chapters sorted by index. -/
def ncxEntries (volumes : List Volume) : List NcxVolEntry :=
  (sortByIdx (fun v => v.idx) volumes).map
    (fun v => ⟨v.idx, v.title, ncxVolumeSrc v, sortByIdx (fun c => c.idx) v.chapters⟩)

/-- The `<docTitle>` text of the navigation-map document (source line 344), raw. -/
def ncxDocTitleText (e : EpubSaver) : String := jsOrStr e.info.bookname "Untitled"

/-- One volume chapter-navPoint pair rendered with the play-order counter. -/
def ncxNavPointBlock (po : Nat) (ent : NcxVolEntry) : String × Nat :=
  let volPart :=
    "\n<navPoint id=\"navpoint-" ++ toString po ++ "\" playOrder=\"" ++ toString po
      ++ "\">\n  <navLabel><text>" ++ ent.volTitle ++ "</text></navLabel>\n  <content src=\""
      ++ ent.volSrc ++ "\"/>"
  let chap := ent.chapters.foldl
    (fun acc c =>
      (acc.1 ++ "\n    <navPoint id=\"navpoint-" ++ toString acc.2 ++ "\" playOrder=\""
        ++ toString acc.2 ++ "\">\n      <navLabel><text>" ++ c.title
        ++ "</text></navLabel>\n      <content src=\"" ++ c.filename ++ "\"/>\n    </navPoint>",
       acc.2 + 1))
    ("", po + 1)
  (volPart ++ chap.1 ++ "</navPoint>", chap.2)

/-- `generateNcx` (source lines 306-349) as the full document text. -/
def generateNcx (e : EpubSaver) : String :=
  let blocks := (ncxEntries e.volumes).foldl
    (fun acc ent =>
      let b := ncxNavPointBlock acc.2 ent
      (acc.1 ++ [b.1], b.2))
    (([] : List String), 1)
  "<?xml version=\"1.0\" encoding=\"UTF-8\"?>\n"
    ++ "<!DOCTYPE ncx PUBLIC \"-//NISO//DTD ncx 2005-1//EN\" \"http://www.daisy.org/z3986/2005/ncx-2005-1.dtd\">\n"
    ++ "<ncx xmlns=\"http://www.daisy.org/z3986/2005/ncx/\" version=\"2005-1\">\n<head>\n"
    ++ "<meta name=\"dtb:uid\" content=\"urn:uuid:" ++ e.uuid ++ "\"/>\n"
    ++ "<meta name=\"dtb:depth\" content=\"2\"/>\n<meta name=\"dtb:totalPageCount\" content=\"0\"/>\n"
    ++ "<meta name=\"dtb:maxPageNumber\" content=\"0\"/>\n</head>\n<docTitle>\n<text>"
    ++ ncxDocTitleText e ++ "</text>\n</docTitle>\n<navMap>\n"
    ++ String.join blocks.1 ++ "\n</navMap>\n</ncx>"

/-- The `<dc:title>` text of the package document (source line 354), raw. -/
def opfTitleText (e : EpubSaver) : String := jsOrStr e.info.bookname "Untitled"

/-- The metadata lines of the package document (source lines 352-359); the timestamp
collaborator is the `nowStr` parameter. -/
def opfMetadataLines (e : EpubSaver) (nowStr : String) : List String :=
  ["<dc:identifier id=\"BookId\">urn:uuid:" ++ e.uuid ++ "</dc:identifier>",
   "<dc:title>" ++ opfTitleText e ++ "</dc:title>",
   "<dc:creator>" ++ jsOrStr e.info.author "Unknown" ++ "</dc:creator>",
   "<dc:description>" ++ jsOrStr e.info.introduction "" ++ "</dc:description>",
   "<dc:language>zh-CN</dc:language>",
   "<meta property=\"dcterms:modified\">" ++ nowStr ++ "Z</meta>"]

/-- The manifest items `(id, href, media-type)` of the package document (source lines
386-406), in emission order, for the cover-applied state: the two fixed items, the two
cover items when cover bytes are present, then one item per resource entry. -/
def opfManifest (e : EpubSaver) : List (String × String × String) :=
  [("nav", "nav.xhtml", "application/xhtml+xml"),
   ("ncx", "toc.ncx", "application/x-dtbncx+xml")]
    ++ (if e.info.cover.isSome then
          [("cover-image", "images/cover.jpg", "image/jpeg"),
           ("cover", "cover.xhtml", "application/xhtml+xml")]
        else [])
    ++ e.resources.map (fun r => (sanitizeId r.1, r.1, mediaTypeOf r.1))

/-- The spine traversal of the package document (source lines 412-420), keeping the
volume and chapter indices the emission was keyed on: volumes sorted by index, chapters
sorted within, each chapter contributing the sanitized idref of its filename. -/
def opfSpineGroups (volumes : List Volume) : List (Int × List (Int × String)) :=
  (sortByIdx (fun v => v.idx) volumes).map
    (fun v => (v.idx, (sortByIdx (fun c => c.idx) v.chapters).map
      (fun c => (c.idx, sanitizeId c.filename))))

/-- The spine idref values in emission order (source lines 408-420). -/
def opfSpine (e : EpubSaver) : List String :=
  (if e.info.cover.isSome then ["cover"] else [])
    ++ ((opfSpineGroups e.volumes).map (fun g => g.2.map (fun c => c.2))).flatten

/-- The guide references of the package document (source line 422). -/
def opfGuide (e : EpubSaver) : List String :=
  if e.info.cover.isSome then ["cover.xhtml"] else []

/-- One rendered manifest item line. -/
def opfItemLine (id href mt : String) : String :=
  "<item id=\"" ++ id ++ "\" href=\"" ++ href ++ "\" media-type=\"" ++ mt ++ "\"/>"

/-- `generateOpf` (source lines 351-438) as the full document text, for the
cover-applied, sorted state (`finalizeState`); its side effects on the state are
`opfApplyCoverResources` and `sortStateVolumes`. -/
def generateOpf (e : EpubSaver) (nowStr : String) : String :=
  let metadata := opfMetadataLines e nowStr
    ++ (if e.info.cover.isSome then
          ["<meta name=\"cover\" content=\"cover-image\"/>",
           "<meta property=\"rendition:layout\">pre-paginated</meta>"]
        else [])
  let manifest :=
    ["<item id=\"nav\" href=\"nav.xhtml\" media-type=\"application/xhtml+xml\" properties=\"nav\"/>",
     "<item id=\"ncx\" href=\"toc.ncx\" media-type=\"application/x-dtbncx+xml\"/>"]
      ++ (if e.info.cover.isSome then
            ["<item id=\"cover-image\" href=\"images/cover.jpg\" media-type=\"image/jpeg\" properties=\"cover-image\"/>",
             "<item id=\"cover\" href=\"cover.xhtml\" media-type=\"application/xhtml+xml\"/>"]
          else [])
      ++ e.resources.map (fun r => opfItemLine (sanitizeId r.1) r.1 (mediaTypeOf r.1))
  let spine := (opfSpine e).map (fun id => "<itemref idref=\"" ++ id ++ "\"/>")
  let guide :=
    if e.info.cover.isSome then "<reference href=\"cover.xhtml\" type=\"cover\" title=\"Cover\"/>"
    else ""
  "<?xml version=\"1.0\" encoding=\"UTF-8\"?>\n"
    ++ "<package xmlns=\"http://www.idpf.org/2007/opf\" unique-identifier=\"BookId\" version=\"3.0\">\n"
    ++ "<metadata xmlns:dc=\"http://purl.org/dc/elements/1.1/\">\n"
    ++ joinSep "\n    " metadata
    ++ "\n</metadata>\n<manifest>\n" ++ joinSep "\n    " manifest
    ++ "\n</manifest>\n<spine toc=\"ncx\">\n" ++ joinSep "\n    " spine
    ++ "\n</spine>\n<guide>\n" ++ guide ++ "\n</guide>\n</package>"

/-- One list item of the navigation document, as structured data: the volume whose item
it is, the emitted volume link `v.chapters[0]?.filename || ''`, the emitted raw title,
and the emitted chapter anchors. -/
structure NavItem where
  volIdx : Int
  volLink : String
  volTitle : String
  chapters : List Chapter
  deriving DecidableEq

/-- The emission sequence of `generateNav` (source lines 440-460): volumes sorted by
index; the volume link is the first chapter file of the (already sorted) chapter array
or the empty string; chapters sorted by index. -/
def navItems (volumes : List Volume) : List NavItem :=
  (sortByIdx (fun v => v.idx) volumes).map
    (fun v =>
      ⟨v.idx,
       (match v.chapters.head? with
        | some c => c.filename
        | none => ""),
       v.title,
       sortByIdx (fun c => c.idx) v.chapters⟩)

/-- One rendered `<li>` block of the navigation document. -/
def navItemBlock (it : NavItem) : String :=
  "\n<li>\n  <a href=\"" ++ it.volLink ++ "\">" ++ it.volTitle ++ "</a>\n  <ol>\n    "
    ++ String.join (it.chapters.map
        (fun c => "\n      <li><a href=\"" ++ c.filename ++ "\">" ++ c.title ++ "</a></li>\n    "))
    ++ "\n  </ol>\n</li>\n"

/-- `generateNav` (source lines 440-476) as the full document text. -/
def generateNav (e : EpubSaver) : String :=
  "<?xml version=\"1.0\" encoding=\"UTF-8\"?>\n"
    ++ "<html xmlns=\"http://www.w3.org/1999/xhtml\" xmlns:epub=\"http://www.idpf.org/2007/ops\">\n"
    ++ "<head>\n<title>Table of Contents</title>\n</head>\n<body>\n<nav epub:type=\"toc\">\n"
    ++ "<h1>Table of Contents</h1>\n<ol>\n"
    ++ String.join ((navItems e.volumes).map navItemBlock)
    ++ "\n</ol>\n</nav>\n</body>\n</html>"

/-- The compression method of an archive entry. -/
inductive ZipMethod where
  | store
  | deflate
  deriving DecidableEq

/-- One entry handed to the archiving collaborator. -/
structure ZipEntry where
  path : String
  data : Bytes
  comp : ZipMethod
  deriving DecidableEq

/-- The fixed container locator `META-INF/container.xml` (source lines 482-487). -/
def containerXml : String :=
  "<?xml version=\"1.0\"?>\n"
    ++ "<container version=\"1.0\" xmlns=\"urn:oasis:names:tc:opendocument:xmlns:container\">\n"
    ++ "<rootfiles>\n<rootfile full-path=\"OEBPS/content.opf\" media-type=\"application/oebps-package+xml\"/>\n"
    ++ "</rootfiles>\n</container>"

/-- `save` (source lines 477-506): the entry set handed to the archiving collaborator,
in insertion order.  The `mimetype` entry carries the per-file STORE override; every
other entry uses the archive-wide DEFLATE compression of `generateAsync`. -/
def save (e : EpubSaver) (nowStr : String) : List ZipEntry :=
  let e1 := finalizeState e
  ZipEntry.mk "mimetype" (strBytes "application/epub+zip") ZipMethod.store ::
  ZipEntry.mk "META-INF/container.xml" (strBytes containerXml) ZipMethod.deflate ::
  ZipEntry.mk "OEBPS/content.opf" (strBytes (generateOpf e1 nowStr)) ZipMethod.deflate ::
  ZipEntry.mk "OEBPS/toc.ncx" (strBytes (generateNcx e1)) ZipMethod.deflate ::
  (e1.resources.map (fun r => ZipEntry.mk ("OEBPS/" ++ r.1) r.2 ZipMethod.deflate)
    ++ [ZipEntry.mk "OEBPS/nav.xhtml" (strBytes (generateNav e1)) ZipMethod.deflate])

/-- The well-formedness invariant the API maintains: every volume has a nonempty
container filename registered in the store, and every chapter filename is registered. -/
def WF (e : EpubSaver) : Prop :=
  ∀ v ∈ e.volumes,
    v.containerFile ≠ "" ∧ storeHas e.resources v.containerFile = true ∧
      ∀ c ∈ v.chapters, storeHas e.resources c.filename = true

/-- Modelled from the spec claim wording of C5 (for refutation comparison only): the
mapping-table value when the content-type has an entry, otherwise the extension implied
by the URL path, otherwise the generic binary extension. -/
def claimedExtension (mimeType url : String) : String :=
  match List.lookup mimeType MIME_MAP with
  | some e => e
  | none =>
    if jsSplitPop '.' (beforeHashQuery url) ≠ "" then jsSplitPop '.' (beforeHashQuery url)
    else "bin"

/-- The amended C5 cascade: the mapping-table value, otherwise the content-type subtype
(the part after the slash) when nonempty, only then the URL-path extension, otherwise
the generic binary extension; all lowercased. -/
def amendedExtension (mimeType url : String) : String :=
  match List.lookup mimeType MIME_MAP with
  | some e => jsToLower e
  | none =>
    if jsSplitPop '/' mimeType ≠ "" then jsToLower (jsSplitPop '/' mimeType)
    else if jsSplitPop '.' (beforeHashQuery url) ≠ "" then
      jsToLower (jsSplitPop '.' (beforeHashQuery url))
    else "bin"

/-- A trivial instance of the opaque HTML parser collaborator: the fragment as one text node. -/
def trivialParse : String → List ContentNode := fun s => [ContentNode.text s]

/-- A trivial instance of the opaque HTML serializer collaborator. -/
def trivialSerialize : List ContentNode → String :=
  fun ns =>
    String.join (ns.map (fun n =>
      match n with
      | ContentNode.text s => s
      | ContentNode.img (some u) => "<img src=\"" ++ u ++ "\"/>"
      | ContentNode.img none => "<img/>"))

/-- A fetch oracle on which every request fails with a network error. -/
def noFetch : FetchFn := fun _ => FetchResult.networkError

/-- The external image URL of the C3 evaluation. -/
def c3Url : String := "http://e.com/a.jpg"

/-- A fetch oracle that succeeds on `c3Url` with a JPEG response and fails elsewhere. -/
def c3Fetch : FetchFn := fun u =>
  if u = c3Url then FetchResult.success ⟨true, some "image/jpeg", [1, 2, 3]⟩
  else FetchResult.networkError

/-- Concrete document for the C1 counterexample: one volume with one chapter, plus a
second volume with zero chapters, built through the API. -/
def eC1 : EpubSaver :=
  addVolume
    (addChapter trivialParse trivialSerialize noFetch false
      (addVolume (EpubSaver.init "uuid-demo") "V1" 1) 0 1 "<p>x</p>" "C1" "html" true true [])
    "V2" 2

/-- Concrete one-volume document for the C1 witness. -/
def eWit : EpubSaver := addVolume (EpubSaver.init "uuid-w") "V" 1

/-- The stylesheet catalog of the C7 scenario: entries at indices 0 and 2. -/
def demoCss : List CssEntry := [⟨0, "s0.css", ""⟩, ⟨2, "s2.css", ""⟩]

/-- Volumes in reverse index order with chapters in reverse index order, for the C8 witness. -/
def c8Vols : List Volume :=
  [⟨2, "V2", "volume_2.xhtml", [⟨2, "B", "chapter_2_2.xhtml"⟩, ⟨1, "A", "chapter_2_1.xhtml"⟩]⟩,
   ⟨1, "V1", "volume_1.xhtml", []⟩]

/-- Concrete document for the C9 witness. -/
def c9State : EpubSaver := addVolume (EpubSaver.init "uuid-9") "V" 1

/-- Concrete document with cover bytes set for the C10 witness. -/
def c10State : EpubSaver := setInfoCoverBytes (EpubSaver.init "uuid-10") [7, 7]

/-- The title with reserved XML characters used by the C4 evaluation. -/
def c4Title : String := "A & B"

/-- A volume titled with reserved XML characters, for the C4 evaluation. -/
def c4Vol : Volume := ⟨1, c4Title, "volume_1.xhtml", []⟩

/-! ### Supporting lemmas about the stable ascending sort -/

theorem mem_insertByIdx {key : α → Int} {x a : α} {l : List α} :
    a ∈ insertByIdx key x l ↔ a = x ∨ a ∈ l := by
  induction l with
  | nil => simp [insertByIdx]
  | cons y ys ih =>
    simp only [insertByIdx]
    split
    · simp only [List.mem_cons, ih]
      tauto
    · simp only [List.mem_cons]

theorem insertByIdx_perm (key : α → Int) (x : α) (l : List α) :
    (insertByIdx key x l).Perm (x :: l) := by
  induction l with
  | nil => simp [insertByIdx]
  | cons y ys ih =>
    simp only [insertByIdx]
    split
    · exact (ih.cons y).trans (List.Perm.swap x y ys)
    · exact List.Perm.refl _

theorem sortByIdx_perm (key : α → Int) (l : List α) : (sortByIdx key l).Perm l := by
  induction l with
  | nil => exact List.Perm.refl _
  | cons x xs ih =>
    have hx : sortByIdx key (x :: xs) = insertByIdx key x (sortByIdx key xs) := rfl
    rw [hx]
    exact (insertByIdx_perm key x _).trans (ih.cons x)

theorem mem_sortByIdx {key : α → Int} {a : α} {l : List α} :
    a ∈ sortByIdx key l ↔ a ∈ l :=
  (sortByIdx_perm key l).mem_iff

theorem pairwise_insertByIdx {key : α → Int} {x : α} {l : List α}
    (h : l.Pairwise (fun a b => key a ≤ key b)) :
    (insertByIdx key x l).Pairwise (fun a b => key a ≤ key b) := by
  induction l with
  | nil => simp [insertByIdx]
  | cons y ys ih =>
    rw [List.pairwise_cons] at h
    simp only [insertByIdx]
    split
    · rename_i hlt
      refine List.pairwise_cons.mpr ⟨?_, ih h.2⟩
      intro b hb
      rcases mem_insertByIdx.mp hb with rfl | hb
      · exact le_of_lt hlt
      · exact h.1 b hb
    · rename_i hge
      rw [not_lt] at hge
      refine List.pairwise_cons.mpr ⟨?_, List.pairwise_cons.mpr h⟩
      intro b hb
      rcases List.mem_cons.mp hb with rfl | hb
      · exact hge
      · exact le_trans hge (h.1 b hb)

theorem sortByIdx_pairwise (key : α → Int) (l : List α) :
    (sortByIdx key l).Pairwise (fun a b => key a ≤ key b) := by
  induction l with
  | nil => simp [sortByIdx]
  | cons x xs ih =>
    have hx : sortByIdx key (x :: xs) = insertByIdx key x (sortByIdx key xs) := rfl
    rw [hx]
    exact pairwise_insertByIdx ih

theorem map_key_sortByIdx_pairwise (key : α → Int) (l : List α) :
    ((sortByIdx key l).map key).Pairwise (· ≤ ·) :=
  List.pairwise_map.mpr (sortByIdx_pairwise key l)

theorem map_key_sortByIdx_perm (key : α → Int) (l : List α) :
    ((sortByIdx key l).map key).Perm (l.map key) :=
  (sortByIdx_perm key l).map key

/-! ### Supporting lemmas about the resource store -/

theorem storeHas_iff_get (s : ResourceStore) (p : String) :
    storeHas s p = (storeGet s p).isSome := by
  induction s with
  | nil => rfl
  | cons r rs ih =>
    by_cases h : r.1 == p
    · simp [storeHas, storeGet, List.any_cons, List.find?_cons, h]
    · simp only [storeHas, storeGet, List.any_cons, List.find?_cons, h] at *
      simpa using ih

theorem storeHas_of_mem {s : ResourceStore} {p : String} {b : Bytes} (h : (p, b) ∈ s) :
    storeHas s p = true :=
  List.any_eq_true.mpr ⟨(p, b), h, by simp⟩

theorem storeHas_append_single (s : ResourceStore) (p q : String) (b : Bytes) :
    storeHas (s ++ [(q, b)]) p = (storeHas s p || (q == p)) := by
  simp [storeHas, List.any_append]

theorem storeHas_addResource_self (s : ResourceStore) (p : String) (b : Bytes) :
    storeHas (_addResource s p b) p = true := by
  unfold _addResource
  split
  · assumption
  · simp [storeHas_append_single]

theorem storeHas_addResource_mono {s : ResourceStore} {p : String} (q : String) (b : Bytes)
    (h : storeHas s p = true) : storeHas (_addResource s q b) p = true := by
  unfold _addResource
  split
  · exact h
  · simp [storeHas_append_single, h]

theorem storeGet_append_single (s : ResourceStore) (p q : String) (b : Bytes) :
    storeGet (s ++ [(q, b)]) p =
      match storeGet s p with
      | some x => some x
      | none => if q == p then some b else none := by
  induction s with
  | nil => by_cases h : q == p <;> simp [storeGet, List.find?_cons, h]
  | cons r rs ih =>
    by_cases h : r.1 == p
    · simp [storeGet, List.find?_cons, h]
    · simp only [storeGet, List.cons_append, List.find?_cons, h] at *
      simpa using ih

theorem storeGet_addResource (s : ResourceStore) (q : String) (b : Bytes) (p : String) :
    storeGet (_addResource s q b) p =
      match storeGet s p with
      | some x => some x
      | none => if q == p then some b else none := by
  unfold _addResource
  split
  · rename_i hhas
    cases hget : storeGet s p with
    | some x => simp
    | none =>
      by_cases hqp : q == p
      · exfalso
        have heq : q = p := by simpa using hqp
        rw [heq, storeHas_iff_get, hget] at hhas
        simp at hhas
      · simp [hqp]
  · exact storeGet_append_single s p q b

theorem buildStore_loop_get (regs : List (String × Bytes)) (s : ResourceStore) (p : String) :
    storeGet (regs.foldl (fun t r => _addResource t r.1 r.2) s) p =
      match storeGet s p with
      | some x => some x
      | none => (regs.find? (fun r => r.1 == p)).map (fun r => r.2) := by
  induction regs generalizing s with
  | nil => cases h : storeGet s p <;> simp [h]
  | cons r rs ih =>
    rw [List.foldl_cons, ih, storeGet_addResource]
    cases hget : storeGet s p with
    | some x => simp
    | none =>
      by_cases h : r.1 == p
      · simp [List.find?_cons, h]
      · simp [List.find?_cons, h]

theorem nodup_keys_addResource {s : ResourceStore} (q : String) (b : Bytes)
    (h : (s.map (fun r => r.1)).Nodup) :
    ((_addResource s q b).map (fun r => r.1)).Nodup := by
  unfold _addResource
  split
  · exact h
  · rename_i hhas
    have hq : q ∉ s.map (fun r => r.1) := by
      intro hmem
      rcases List.mem_map.mp hmem with ⟨r, hr, hrq⟩
      have : storeHas s q = true := List.any_eq_true.mpr ⟨r, hr, by simp [hrq]⟩
      simp [this] at hhas
    rw [List.map_append]
    simp only [List.map_cons, List.map_nil]
    rw [List.nodup_append]
    refine ⟨h, List.nodup_singleton q, ?_⟩
    intro a ha hb
    rw [List.mem_singleton] at hb
    exact hq (hb ▸ ha)

theorem buildStore_loop_nodup (regs : List (String × Bytes)) (s : ResourceStore)
    (h : (s.map (fun r => r.1)).Nodup) :
    (((regs.foldl (fun t r => _addResource t r.1 r.2) s)).map (fun r => r.1)).Nodup := by
  induction regs generalizing s with
  | nil => exact h
  | cons r rs ih =>
    rw [List.foldl_cons]
    exact ih _ (nodup_keys_addResource r.1 r.2 h)

/-! ### Supporting lemmas about lookup, links and the invariant -/

theorem lookup_mem {α β : Type} [BEq α] (a : α) (l : List (α × β)) (b : β)
    (h : List.lookup a l = some b) : ∃ k, (k, b) ∈ l := by
  induction l with
  | nil => simp [List.lookup] at h
  | cons x t ih =>
    rw [List.lookup] at h
    cases hx : a == x.1 with
    | true =>
      rw [hx] at h
      exact ⟨x.1, by simp [← Option.some_inj.mp h]⟩
    | false =>
      rw [hx] at h
      rcases ih h with ⟨k, hk⟩
      exact ⟨k, List.mem_cons_of_mem _ hk⟩

theorem cssLinks_foldl (cssL : List CssEntry) (L : List Int) (acc : List CssEntry) :
    L.foldl
      (fun acc i =>
        match cssL.find? (fun c => c.idx == i) with
        | some c => acc ++ [c]
        | none => acc)
      acc
    = acc ++ L.filterMap (fun i => cssL.find? (fun c => c.idx == i)) := by
  induction L generalizing acc with
  | nil => simp
  | cons i t ih =>
    rw [List.foldl_cons]
    cases h : cssL.find? (fun c => c.idx == i) with
    | some c =>
      rw [ih]
      simp [List.filterMap_cons, h]
    | none =>
      rw [ih]
      simp [List.filterMap_cons, h]

theorem WF_opfApply {e : EpubSaver} (h : WF e) : WF (opfApplyCoverResources e) := by
  unfold opfApplyCoverResources
  cases hc : e.info.cover with
  | none => exact h
  | some cover =>
    intro v hv
    obtain ⟨h1, h2, h3⟩ := h v hv
    refine ⟨h1, ?_, ?_⟩
    · exact storeHas_addResource_mono _ _ (storeHas_addResource_mono _ _ h2)
    · intro c hcm
      exact storeHas_addResource_mono _ _ (storeHas_addResource_mono _ _ (h3 c hcm))

theorem WF_sortState {e : EpubSaver} (h : WF e) : WF (sortStateVolumes e) := by
  intro v hv
  have hv2 : v ∈ e.volumes.map
      (fun v => { v with chapters := sortByIdx (fun c => c.idx) v.chapters }) :=
    mem_sortByIdx.mp hv
  rcases List.mem_map.mp hv2 with ⟨v0, hv0, rfl⟩
  obtain ⟨h1, h2, h3⟩ := h v0 hv0
  refine ⟨h1, h2, ?_⟩
  intro c hc
  exact h3 c (mem_sortByIdx.mp hc)

theorem WF_finalize {e : EpubSaver} (h : WF e) : WF (finalizeState e) :=
  WF_sortState (WF_opfApply h)

theorem finalize_resources (e : EpubSaver) :
    (finalizeState e).resources = (opfApplyCoverResources e).resources := rfl

theorem finalize_info (e : EpubSaver) : (finalizeState e).info = e.info := by
  unfold finalizeState sortStateVolumes opfApplyCoverResources
  cases e.info.cover <;> rfl

/-! ### Claim theorems -/

/-- C2: for every sequence of resource registrations, the final resource table contains
at most one entry per distinct path, the bytes stored under a path are those of the
first registration of that path, and a later registration of an already-present path
leaves the store unchanged (an observable no-op). -/
theorem c2_first_write_wins :
    (∀ (regs : List (String × Bytes)) (p : String),
        storeGet (buildStore regs) p = (regs.find? (fun r => r.1 == p)).map (fun r => r.2)) ∧
    (∀ regs : List (String × Bytes), ((buildStore regs).map (fun r => r.1)).Nodup) ∧
    (∀ (s : ResourceStore) (p : String) (b : Bytes),
        storeHas s p = true → _addResource s p b = s) := by
  refine ⟨?_, ?_, ?_⟩
  · intro regs p
    unfold buildStore
    rw [buildStore_loop_get]
    rfl
  · intro regs
    exact buildStore_loop_nodup regs [] (by simp)
  · intro s p b h
    unfold _addResource
    rw [if_pos h]

/-- C2 witness: a duplicate registration of path `a` keeps the first bytes and is a no-op. -/
theorem c2_witness :
    _addResource [("a", [1])] "a" [2] = [("a", [1])] ∧
    storeGet (buildStore [("a", [1]), ("a", [2])]) "a" = some [1] := by
  constructor
  · exact c2_first_write_wins.2.2 [("a", [1])] "a" [2] (by decide)
  · rw [c2_first_write_wins.1 [("a", [1]), ("a", [2])] "a"]
    decide

/-- C5 counterexample: for declared content-type `image/tiff` (no table entry) and a URL
ending in `.png`, the code derives the subtype `tiff`, while the claim requires the URL
extension `png`. -/
theorem c5_counterexample :
    getExtension "image/tiff" "http://x.com/a.png" = "tiff" ∧
    claimedExtension "image/tiff" "http://x.com/a.png" = "png" ∧
    getExtension "image/tiff" "http://x.com/a.png" ≠
      claimedExtension "image/tiff" "http://x.com/a.png" :=
  ⟨by decide, by decide, by decide⟩

/-- C5 (amended): the extension cascade is the mapping table, otherwise the
content-type subtype when nonempty, only then the URL-path extension, otherwise the
generic binary extension, all lowercased. -/
theorem c5_amended_ext : ∀ (m u : String), getExtension m u = amendedExtension m u := by
  intro m u
  unfold getExtension amendedExtension
  cases h : List.lookup m MIME_MAP with
  | some e =>
    have he : e ≠ "" := by
      rcases lookup_mem m MIME_MAP e h with ⟨k, hk⟩
      have hv : ∀ p ∈ MIME_MAP, p.2 ≠ "" := by decide
      exact hv (k, e) hk
    simp [he]
  | none =>
    by_cases hs : jsSplitPop '/' m = ""
    · by_cases hu : jsSplitPop '.' (beforeHashQuery u) = ""
      · simp [hs, hu]
        decide
      · simp [hs, hu]
    · simp [hs]

/-- C6 counterexample: an image element whose `src` is the empty string (not an absolute
HTTP URL) is left in the output tree instead of being removed. -/
theorem c6_counterexample :
    ContentNode.img (some "") ∈
      (processImages [] false noFetch 0 [ContentNode.img (some "")]).1 ∧
    jsStartsWith "http" "" = false :=
  ⟨by decide, by decide⟩

/-- C6 (amended): an image whose nonempty `src` is not already in the URL index and
either is not an absolute HTTP URL, or whose fetch fails or returns a non-success
status, is removed from the tree, stages no resource and no URL mapping, and the
remaining images are processed exactly as if the element were absent; the model is
total, so no exception reaches the caller.  Images with a missing or empty `src`, or
whose URL is already indexed, are instead left untouched. -/
theorem c6_amended_removal (urls : UrlIndex) (secure : Bool) (f : FetchFn) (c : Nat)
    (ns : List ContentNode) (url : String) (hne : url ≠ "")
    (hnotin : urlHas urls url = false)
    (hbad : jsStartsWith "http" url = false ∨ fetchFails f (upgradeUrl secure url) = true) :
    processImages urls secure f c (ContentNode.img (some url) :: ns) =
      processImages urls secure f c ns ∧
    processImages urls secure f c [ContentNode.img (some url)] = ([], [], c) := by
  have hstep : processImg urls secure f c (ContentNode.img (some url)) = (none, none, c) := by
    simp only [processImg]
    rw [if_neg hne]
    rw [if_neg (by simp [hnotin])]
    cases hsw : jsStartsWith "http" url with
    | false => rw [if_pos (by simp [hsw])]
    | true =>
      rw [if_neg (by simp [hsw])]
      have hb : fetchFails f (upgradeUrl secure url) = true := by
        rcases hbad with hb | hb
        · rw [hsw] at hb
          exact absurd hb (by simp)
        · exact hb
      cases hf : f (upgradeUrl secure url) with
      | networkError => rfl
      | success r =>
        simp only [fetchFails, hf] at hb
        simp [hb]
  have hcons : ∀ (c0 : Nat) (n : ContentNode) (ns0 : List ContentNode),
      processImages urls secure f c0 (n :: ns0) =
        (let r := processImg urls secure f c0 n
         let rest := processImages urls secure f r.2.2 ns0
         (r.1.toList ++ rest.1, r.2.1.toList ++ rest.2.1, rest.2.2)) :=
    fun _ _ _ => rfl
  constructor
  · rw [hcons, hstep]
    rfl
  · rw [hcons, hstep]
    rfl

/-- C6 witness: a relative URL image is removed, stages nothing, and keeps the counter. -/
theorem c6_removal_witness :
    processImages [] false noFetch 0 [ContentNode.img (some "x.jpg")] = ([], [], 0) :=
  (c6_amended_removal [] false noFetch 0 [] "x.jpg" (by decide) (by decide)
    (Or.inl (by decide))).2

/-- C7: with useGlobalCSS the emitted link list is exactly stylesheet index 0 (when
present) followed by the first match of each requested index in request order,
unmatched indices silently skipped; with stylesheets at indices 0 and 2 and request
list [2], exactly two link elements are emitted in the order [stylesheet 0,
stylesheet 2]. -/
theorem c7_css_link_order :
    (∀ (cssL : List CssEntry) (L : List Int), cssLinks cssL true L = claimedCssLinks cssL L) ∧
    cssLinks demoCss true [2] = [⟨0, "s0.css", ""⟩, ⟨2, "s2.css", ""⟩] ∧
    chapterLinkTags demoCss true [2] =
      ["<link href=\"s0.css\" rel=\"stylesheet\"/>",
       "<link href=\"s2.css\" rel=\"stylesheet\"/>"] := by
  refine ⟨?_, by decide, by decide⟩
  intro cssL L
  unfold cssLinks claimedCssLinks
  rw [cssLinks_foldl]
  rfl

/-- C9: the first archive entry handed to the archiving collaborator is the fixed
MIME-type string with the STORE method forced for it alone; every other entry uses
deflate compression. -/
theorem c9_mimetype_store (e : EpubSaver) (nowStr : String) :
    (save e nowStr).head? =
      some (ZipEntry.mk "mimetype" (strBytes "application/epub+zip") ZipMethod.store) ∧
    ∀ ent ∈ (save e nowStr).tail, ent.comp = ZipMethod.deflate := by
  constructor
  · rfl
  · intro ent hent
    simp only [save, List.tail_cons, List.mem_cons, List.mem_append, List.mem_map,
      List.mem_singleton] at hent
    rcases hent with rfl | rfl | rfl | hent
    · rfl
    · rfl
    · rfl
    · rcases hent with ⟨r, hr, rfl⟩ | hent
      · rfl
      · rcases hent with rfl | h
        · rfl
        · exact absurd h (by simp)

set_option maxRecDepth 16384 in
/-- C3 (code-bug evaluation): with one chapter containing two images with the same
external URL, the race-free execution stages two resources under distinct paths and
rewrites the two elements to different local paths; registering them stores two entries
for the one URL with the URL map keeping the last path; and in a later chapter the same
URL is left as the external URL instead of the local path — against the claim that
exactly one resource is registered and both locations carry the same local path. -/
theorem c3_duplicate_url_eval :
    processImages [] false c3Fetch 0
        [ContentNode.img (some c3Url), ContentNode.img (some c3Url)] =
      ([ContentNode.img (some "images/img0.jpg"), ContentNode.img (some "images/img1.jpg")],
       [(c3Url, "images/img0.jpg", [1, 2, 3]), (c3Url, "images/img1.jpg", [1, 2, 3])], 2) ∧
    (registerResources (EpubSaver.init "u")
        [(c3Url, "images/img0.jpg", [1, 2, 3]), (c3Url, "images/img1.jpg", [1, 2, 3])]).resources.map
        (fun r => r.1) = ["images/img0.jpg", "images/img1.jpg"] ∧
    urlGet
        (registerResources (EpubSaver.init "u")
          [(c3Url, "images/img0.jpg", [1, 2, 3]),
           (c3Url, "images/img1.jpg", [1, 2, 3])]).resourceUrls
        c3Url = some "images/img1.jpg" ∧
    processImages [(c3Url, "images/img0.jpg")] false c3Fetch 2 [ContentNode.img (some c3Url)] =
      ([ContentNode.img (some c3Url)], [], 2) :=
  ⟨by decide, by decide, by decide, by decide⟩

set_option maxRecDepth 16384 in
/-- C4 (code-bug evaluation): a title containing reserved XML characters is embedded
verbatim (unescaped) in the navigation-map labels and docTitle text, the package
document title text, the navigation-document titles, the volume container document,
and the chapter heading produced by wrapContent, although escapeXml would change it. -/
theorem c4_unescaped_title_eval :
    escapeXml c4Title = "A &amp; B" ∧
    escapeXml c4Title ≠ c4Title ∧
    wrapContent "x" c4Title "text" true = "<pre><h1>A & B</h1>x</pre>" ∧
    (ncxEntries [c4Vol]).map NcxVolEntry.volTitle = [c4Title] ∧
    ncxDocTitleText (setInfoTag (EpubSaver.init "u") "bookname" c4Title) = c4Title ∧
    opfTitleText (setInfoTag (EpubSaver.init "u") "bookname" c4Title) = c4Title ∧
    (navItems [c4Vol]).map NavItem.volTitle = [c4Title] ∧
    volumeContainerContent c4Title =
      "<?xml version=\"1.0\" encoding=\"UTF-8\"?>\n<!DOCTYPE html>\n<html xmlns=\"http://www.w3.org/1999/xhtml\">\n<head>\n<title>A & B</title>\n</head>\n<body>\n<h1>A & B</h1>\n</body>\n</html>" :=
  ⟨by decide, by decide, by decide, by decide, by decide, by decide, by decide, by decide⟩

/-- Generic sortedness of a generator emission: mapping a per-volume block constructor
over the sorted volume list yields index sequences sorted ascending and permuting the
input, outside and, through the sorted chapter lists, inside each block. -/
theorem sortedEmissionBlock {β : Type} (volumes : List Volume) (mk : Volume → β)
    (getIdx : β → Int) (getChIdx : β → List Int)
    (hIdx : ∀ v, getIdx (mk v) = v.idx)
    (hCh : ∀ v, getChIdx (mk v) =
      (sortByIdx (fun c => c.idx) v.chapters).map (fun c => c.idx)) :
    (((sortByIdx (fun v => v.idx) volumes).map mk).map getIdx).Pairwise (· ≤ ·) ∧
    (((sortByIdx (fun v => v.idx) volumes).map mk).map getIdx).Perm
      (volumes.map (fun v => v.idx)) ∧
    ∀ b ∈ (sortByIdx (fun v => v.idx) volumes).map mk,
      (getChIdx b).Pairwise (· ≤ ·) ∧
        ∃ v ∈ volumes, getIdx b = v.idx ∧
          (getChIdx b).Perm (v.chapters.map (fun c => c.idx)) := by
  refine ⟨?_, ?_, ?_⟩
  · rw [List.map_map, show (getIdx ∘ mk) = (fun v : Volume => v.idx) from funext hIdx]
    exact map_key_sortByIdx_pairwise _ volumes
  · rw [List.map_map, show (getIdx ∘ mk) = (fun v : Volume => v.idx) from funext hIdx]
    exact map_key_sortByIdx_perm _ volumes
  · intro b hb
    rcases List.mem_map.mp hb with ⟨v, hv, rfl⟩
    rw [hCh, hIdx]
    exact ⟨map_key_sortByIdx_pairwise _ _,
      ⟨v, mem_sortByIdx.mp hv, rfl, map_key_sortByIdx_perm _ _⟩⟩

/-- C8: in each generated document (navigation-map, package spine, navigation), the
volume blocks appear sorted ascending by volume index and, within each block, the
chapters sorted ascending by chapter index, and the emitted blocks are a permutation of
the document state, for every state and so regardless of insertion order. -/
theorem c8_sorted_emission (volumes : List Volume) :
    (((ncxEntries volumes).map NcxVolEntry.volIdx).Pairwise (· ≤ ·) ∧
      ((ncxEntries volumes).map NcxVolEntry.volIdx).Perm (volumes.map (fun v => v.idx)) ∧
      ∀ ent ∈ ncxEntries volumes,
        ((ent.chapters.map (fun c => c.idx)).Pairwise (· ≤ ·) ∧
          ∃ v ∈ volumes, ent.volIdx = v.idx ∧
            (ent.chapters.map (fun c => c.idx)).Perm (v.chapters.map (fun c => c.idx)))) ∧
    (((opfSpineGroups volumes).map Prod.fst).Pairwise (· ≤ ·) ∧
      ((opfSpineGroups volumes).map Prod.fst).Perm (volumes.map (fun v => v.idx)) ∧
      ∀ g ∈ opfSpineGroups volumes,
        ((g.2.map Prod.fst).Pairwise (· ≤ ·) ∧
          ∃ v ∈ volumes, g.1 = v.idx ∧
            (g.2.map Prod.fst).Perm (v.chapters.map (fun c => c.idx)))) ∧
    (((navItems volumes).map NavItem.volIdx).Pairwise (· ≤ ·) ∧
      ((navItems volumes).map NavItem.volIdx).Perm (volumes.map (fun v => v.idx)) ∧
      ∀ it ∈ navItems volumes,
        ((it.chapters.map (fun c => c.idx)).Pairwise (· ≤ ·) ∧
          ∃ v ∈ volumes, it.volIdx = v.idx ∧
            (it.chapters.map (fun c => c.idx)).Perm (v.chapters.map (fun c => c.idx)))) := by
  refine ⟨?_, ?_, ?_⟩
  · exact sortedEmissionBlock volumes
      (fun v => (⟨v.idx, v.title, ncxVolumeSrc v,
        sortByIdx (fun c => c.idx) v.chapters⟩ : NcxVolEntry))
      NcxVolEntry.volIdx (fun b => b.chapters.map (fun c => c.idx))
      (fun v => rfl) (fun v => rfl)
  · exact sortedEmissionBlock volumes
      (fun v => (v.idx, (sortByIdx (fun c => c.idx) v.chapters).map
        (fun c => (c.idx, sanitizeId c.filename))))
      Prod.fst (fun g => g.2.map Prod.fst)
      (fun v => rfl) (fun v => by simp [List.map_map, Function.comp])
  · exact sortedEmissionBlock volumes
      (fun v => (⟨v.idx,
        (match v.chapters.head? with
         | some c => c.filename
         | none => ""),
        v.title, sortByIdx (fun c => c.idx) v.chapters⟩ : NavItem))
      NavItem.volIdx (fun b => b.chapters.map (fun c => c.idx))
      (fun v => rfl) (fun v => rfl)

/-- C8 witness: the navigation-map emission of an out-of-order state permutes the state
and comes out in ascending index order. -/
theorem c8_witness :
    ((ncxEntries c8Vols).map NcxVolEntry.volIdx).Perm (c8Vols.map (fun v => v.idx)) ∧
    (ncxEntries c8Vols).map NcxVolEntry.volIdx = [1, 2] :=
  ⟨(c8_sorted_emission c8Vols).1.2.1, by decide⟩

set_option maxRecDepth 16384 in
/-- C9 witness: on a concrete document, the head entry is the stored mimetype and the
container locator entry is deflated. -/
theorem c9_witness :
    (save c9State "2026-01-01T00:00:00").head? =
      some (ZipEntry.mk "mimetype" (strBytes "application/epub+zip") ZipMethod.store) ∧
    (ZipEntry.mk "META-INF/container.xml" (strBytes containerXml) ZipMethod.deflate).comp =
      ZipMethod.deflate :=
  ⟨(c9_mimetype_store c9State "2026-01-01T00:00:00").1,
   (c9_mimetype_store c9State "2026-01-01T00:00:00").2
     (ZipEntry.mk "META-INF/container.xml" (strBytes containerXml) ZipMethod.deflate)
     (by decide)⟩


/-- C10: whenever cover bytes are set, finalize registers them under the fixed path
images/cover.jpg (regardless of the actual image format), the manifest declares that
item with media-type image/jpeg, and a cover set from a URL stores the raw fetched
response body with no status or content-type inspection. -/
theorem c10_cover_fixed_path (e : EpubSaver) (b : Bytes)
    (hc : e.info.cover = some b)
    (hnew : storeHas e.resources "images/cover.jpg" = false) :
    storeGet (finalizeState e).resources "images/cover.jpg" = some b ∧
    ("cover-image", "images/cover.jpg", "image/jpeg") ∈ opfManifest (finalizeState e) ∧
    ∀ (f : FetchFn) (url : String) (r : FetchResponse), f url = FetchResult.success r →
      setInfoCoverUrl f e url =
        some { e with info := { e.info with cover := some r.bytes } } := by
  have hres : (finalizeState e).resources =
      _addResource (_addResource e.resources "images/cover.jpg" b) "cover.xhtml"
        (strBytes opfApplyCoverResources.coverXhtml) := by
    rw [finalize_resources]
    unfold opfApplyCoverResources
    rw [hc]
  refine ⟨?_, ?_, ?_⟩
  · rw [hres, storeGet_addResource, storeGet_addResource]
    have hg : storeGet e.resources "images/cover.jpg" = none := by
      have hiff := storeHas_iff_get e.resources "images/cover.jpg"
      rw [hnew] at hiff
      cases hgg : storeGet e.resources "images/cover.jpg" with
      | none => rfl
      | some x =>
        rw [hgg] at hiff
        simp at hiff
    rw [hg]
    simp
  · have hinfo : (finalizeState e).info = e.info := finalize_info e
    unfold opfManifest
    rw [hinfo, hc]
    simp
  · intro f url r hf
    unfold setInfoCoverUrl
    rw [hf]

/-- C10 witness: a concrete document with cover bytes set. -/
theorem c10_witness :
    storeGet (finalizeState c10State).resources "images/cover.jpg" = some [7, 7] ∧
    ("cover-image", "images/cover.jpg", "image/jpeg") ∈ opfManifest (finalizeState c10State) :=
  ⟨(c10_cover_fixed_path c10State [7, 7] (by decide) (by decide)).1,
   (c10_cover_fixed_path c10State [7, 7] (by decide) (by decide)).2.1⟩

set_option maxRecDepth 32768 in
/-- C1 counterexample: on a finalized document with one chaptered volume and one
zero-chapter volume, the navigation document emits the empty string as the
zero-chapter volume link, the package document emits the fixed nav.xhtml manifest
href, and the spine emits a sanitized idref, none of which is a key of the final
ResourceStore, so the claim as stated is false. -/
theorem c1_counterexample :
    ("" ∈ (navItems (finalizeState eC1).volumes).map NavItem.volLink ∧
      storeHas (finalizeState eC1).resources "" = false) ∧
    (("nav", "nav.xhtml", "application/xhtml+xml") ∈ opfManifest (finalizeState eC1) ∧
      storeHas (finalizeState eC1).resources "nav.xhtml" = false) ∧
    ("chapter-1-1-xhtml" ∈ opfSpine (finalizeState eC1) ∧
      storeHas (finalizeState eC1).resources "chapter-1-1-xhtml" = false) := by
  decide

/-- C1 (amended): for every well-formed document state, at archive-assembly time every
navigation-map src, every package-manifest href other than the two fixed nav.xhtml and
toc.ncx items, every guide href and every navigation-document chapter href names a key
of the final ResourceStore; every spine idref is either the cover idref or the
sanitization of a store key (not a store key itself); and the navigation-document
volume link is a store key exactly when the volume has chapters, and the empty string
otherwise. -/
theorem c1_amended (e : EpubSaver) (h : WF e) :
    (∀ ent ∈ ncxEntries (finalizeState e).volumes,
        storeHas (finalizeState e).resources ent.volSrc = true ∧
          ∀ c ∈ ent.chapters, storeHas (finalizeState e).resources c.filename = true) ∧
    (∀ item ∈ (opfManifest (finalizeState e)).drop 2,
        storeHas (finalizeState e).resources item.2.1 = true) ∧
    (∀ ref ∈ opfSpine (finalizeState e),
        ref = "cover" ∨
          ∃ p, storeHas (finalizeState e).resources p = true ∧ ref = sanitizeId p) ∧
    (∀ g ∈ opfGuide (finalizeState e), storeHas (finalizeState e).resources g = true) ∧
    (∀ it ∈ navItems (finalizeState e).volumes,
        ((it.volLink = "" ∧ it.chapters = []) ∨
          storeHas (finalizeState e).resources it.volLink = true) ∧
        ∀ c ∈ it.chapters, storeHas (finalizeState e).resources c.filename = true) := by
  have hf : WF (finalizeState e) := WF_finalize h
  have hinfo : (finalizeState e).info = e.info := finalize_info e
  have hcovreg : (finalizeState e).info.cover.isSome = true →
      storeHas (finalizeState e).resources "images/cover.jpg" = true ∧
        storeHas (finalizeState e).resources "cover.xhtml" = true := by
    intro hs
    rw [hinfo] at hs
    cases hc : e.info.cover with
    | none =>
      rw [hc] at hs
      simp at hs
    | some cover =>
      have hres : (finalizeState e).resources =
          _addResource (_addResource e.resources "images/cover.jpg" cover) "cover.xhtml"
            (strBytes opfApplyCoverResources.coverXhtml) := by
        rw [finalize_resources]
        unfold opfApplyCoverResources
        rw [hc]
      rw [hres]
      exact ⟨storeHas_addResource_mono _ _ (storeHas_addResource_self _ _ _),
        storeHas_addResource_self _ _ _⟩
  refine ⟨?_, ?_, ?_, ?_, ?_⟩
  · intro ent hent
    simp only [ncxEntries] at hent
    rcases List.mem_map.mp hent with ⟨v, hv, rfl⟩
    obtain ⟨h1, h2, h3⟩ := hf v (mem_sortByIdx.mp hv)
    constructor
    · show storeHas (finalizeState e).resources (ncxVolumeSrc v) = true
      unfold ncxVolumeSrc
      rw [if_neg h1]
      exact h2
    · intro c hc
      exact h3 c (mem_sortByIdx.mp hc)
  · intro item hitem
    have hdrop : (opfManifest (finalizeState e)).drop 2 =
        (if (finalizeState e).info.cover.isSome then
            [("cover-image", "images/cover.jpg", "image/jpeg"),
             ("cover", "cover.xhtml", "application/xhtml+xml")]
          else [])
          ++ (finalizeState e).resources.map (fun r => (sanitizeId r.1, r.1, mediaTypeOf r.1)) :=
      rfl
    rw [hdrop] at hitem
    rcases List.mem_append.mp hitem with hcov | hres
    · cases hx : (finalizeState e).info.cover.isSome with
      | false =>
        rw [hx] at hcov
        simp at hcov
      | true =>
        rw [hx] at hcov
        simp only [if_pos] at hcov
        rcases hcovreg hx with ⟨hcj, hcx⟩
        rcases List.mem_cons.mp hcov with rfl | hcov2
        · exact hcj
        · rcases List.mem_cons.mp hcov2 with rfl | hcov3
          · exact hcx
          · exact absurd hcov3 (by simp)
    · rcases List.mem_map.mp hres with ⟨r, hr, rfl⟩
      exact storeHas_of_mem hr
  · intro ref href
    rcases List.mem_append.mp href with hcov | hflat
    · cases hx : (finalizeState e).info.cover.isSome with
      | false =>
        rw [hx] at hcov
        simp at hcov
      | true =>
        rw [hx] at hcov
        simp at hcov
        exact Or.inl hcov
    · right
      rcases List.mem_flatten.mp hflat with ⟨l, hl, hrefl⟩
      rcases List.mem_map.mp hl with ⟨g, hg, rfl⟩
      simp only [opfSpineGroups] at hg
      rcases List.mem_map.mp hg with ⟨v, hv, rfl⟩
      obtain ⟨h1, h2, h3⟩ := hf v (mem_sortByIdx.mp hv)
      rw [List.map_map] at hrefl
      rcases List.mem_map.mp hrefl with ⟨c, hc, rfl⟩
      exact ⟨c.filename, h3 c (mem_sortByIdx.mp hc), rfl⟩
  · intro g hg
    unfold opfGuide at hg
    cases hx : (finalizeState e).info.cover.isSome with
    | false =>
      rw [hx] at hg
      simp at hg
    | true =>
      rw [hx] at hg
      simp at hg
      rw [hg]
      exact (hcovreg hx).2
  · intro it hit
    simp only [navItems] at hit
    rcases List.mem_map.mp hit with ⟨v, hv, rfl⟩
    obtain ⟨h1, h2, h3⟩ := hf v (mem_sortByIdx.mp hv)
    constructor
    · rcases hch : v.chapters with _ | ⟨c, cs⟩
      · exact Or.inl ⟨rfl, rfl⟩
      · right
        exact h3 c (by rw [hch]; exact List.mem_cons_self c cs)
    · intro c hc
      exact h3 c (mem_sortByIdx.mp hc)

/-- C1 witness: the amended theorem applied to a concrete one-volume document. -/
theorem c1_amended_witness :
    storeHas (finalizeState eWit).resources "volume_1.xhtml" = true :=
  ((c1_amended eWit (by unfold WF eWit; decide)).1 ⟨1, "V", "volume_1.xhtml", []⟩ (by decide)).1

end Epub
